import Mathlib

/-!
Verification development for the Funeral-Arrangement-App server.

The definitions below are a shallow embedding of the TypeScript sources
(src/server/documentService.ts, src/server/routes.ts, src/server/storage.ts,
src/server/improvedPdfService.ts, src/server/pdfService.ts).  The database is
modelled as lists of rows, single-row ORM operations as pure list
transformations, and the external collaborators (the LLM, the PDF byte
producer, JSON.parse, jsPDF text metrics) as explicit outcome parameters
threaded through the handlers.  Timestamps are natural numbers (milliseconds).
-/

/-! ## Document types (documentService.ts, the `type` union) -/

inductive DocType where
  | contract
  | summary
  | obituary
  | tasks
  | arranger_tasks
  | death_cert
deriving DecidableEq, Repr

/-- String value of the `type` field as it appears in the TypeScript union. -/
def tyStr : DocType → String
  | .contract => "contract"
  | .summary => "summary"
  | .obituary => "obituary"
  | .tasks => "tasks"
  | .arranger_tasks => "arranger_tasks"
  | .death_cert => "death_cert"

/-! ## Executable string helpers

Core String library functions (trim, split, startsWith, drop, intercalate)
are re-implemented structurally on the character list so that every concrete
instance below evaluates inside the kernel; each has the same semantics as
the library function the TypeScript source corresponds to. -/

def wsTrim (l : List Char) : List Char :=
  ((l.dropWhile Char.isWhitespace).reverse.dropWhile Char.isWhitespace).reverse

/-- JS String.prototype.trim. -/
def strTrim (s : String) : String := String.mk (wsTrim s.data)

/-- JS String.prototype.startsWith. -/
def strStartsWith (s p : String) : Bool := p.data.isPrefixOf s.data

def strDrop (s : String) (n : Nat) : String := String.mk (s.data.drop n)

def splitCharsAux (p : Char → Bool) : List Char → List Char → List (List Char)
  | [], acc => [acc.reverse]
  | c :: rest, acc =>
    if p c then acc.reverse :: splitCharsAux p rest []
    else splitCharsAux p rest (c :: acc)

/-- Split at every character satisfying p; separators are dropped and
consecutive separators yield empty pieces. -/
def splitChars (p : Char → Bool) (l : List Char) : List (List Char) :=
  splitCharsAux p l []

/-- JS Array.prototype.join / String.intercalate. -/
def joinSep (sep : String) : List String → String
  | [] => ""
  | [s] => s
  | s :: rest => s ++ sep ++ joinSep sep rest

/-! ## Extracted arrangement data (the fields the fallback templates read)

The JS code reads `arrangementData.arrangement?.basic_information || {}` and
`arrangementData.arrangement?.arrangements || {}`; the optional-chaining and
`|| {}` defaults are modelled by `Option` fields (a missing object yields
`none` for every field read from it). -/

structure DeceasedName where
  first : Option String
  middle : Option String
  last : Option String
  suffix : Option String
deriving DecidableEq, Repr

structure ArrangementData where
  deceased_name : Option DeceasedName
  service_date : Option String
  service_time : Option String
  funeral_service_place : Option String
deriving DecidableEq, Repr

/-- Value of every property access on a non-object (the handler passes the raw
`extractedData` string where an object is expected in the task-creation step):
all reads yield `undefined`, i.e. `none`. -/
def emptyArrangementData : ArrangementData :=
  { deceased_name := none, service_date := none, service_time := none
    funeral_service_place := none }

/-- JS template interpolation of a possibly-undefined value:
`${x}` prints the string "undefined" when `x` is undefined. -/
def jsStr : Option String → String
  | none => "undefined"
  | some s => s

/-- JS `x || 'TBD'`: falls back on `undefined` and on the empty string
(both falsy). -/
def jsOr (o : Option String) (dflt : String) : String :=
  match o with
  | none => dflt
  | some s => if s = "" then dflt else s

/-- DocumentService.getDeceasedFullName: joins the name parts present
(`filter(Boolean)` drops undefined and empty strings), space separated;
empty string when `deceased_name` is missing. -/
def getDeceasedFullName (d : ArrangementData) : String :=
  match d.deceased_name with
  | none => ""
  | some n =>
    joinSep " "
      (([n.first, n.middle, n.last, n.suffix].filterMap id).filter (fun s => s != ""))

/-- Title line of the hardcoded funeral-director fallback template
(documentService.ts, getFallbackTasks). -/
def tasksChecklistTitle : String := "# Funeral Director Task Checklist"

/-- Body of the getFallbackTasks template after the title literal.
`today` stands for `getFormattedDate()` (the current date rendered in en-US
long form, an impure input of the source). -/
def fallbackTasksBody (d : ArrangementData) (today : String) : String :=
  "\n" ++ getDeceasedFullName d ++
  "\n<div style=\"text-align: right;\">Generated: " ++ today ++ "</div>\n\n---\n\n" ++
  "## Immediate Tasks (24 Hours)\n" ++
  "- [ ] Complete death certificate coordination\n" ++
  "- [ ] Prepare legal documentation\n" ++
  "- [ ] Follow up with family consultation\n" ++
  "- [ ] Schedule facility arrangements\n\n" ++
  "## Pre-Service Tasks (1-3 Days)\n" ++
  "- [ ] Setup service arrangements\n" ++
  "- [ ] Confirm vendor services\n" ++
  "- [ ] Assign staff responsibilities\n" ++
  "- [ ] Prepare equipment and facilities\n\n" ++
  "## Day of Service\n" ++
  "- [ ] Coordinate service execution\n" ++
  "- [ ] Manage staff and logistics\n" ++
  "- [ ] Provide technical support\n" ++
  "- [ ] Oversee ceremonial duties\n\n" ++
  "## Post-Service\n" ++
  "- [ ] Complete documentation\n" ++
  "- [ ] Process final billing\n" ++
  "- [ ] Coordinate facility cleanup\n" ++
  "- [ ] Follow up with family\n\n" ++
  "Service Details: " ++ jsStr ((d.deceased_name).bind (·.first)) ++ " " ++
  jsStr ((d.deceased_name).bind (·.last)) ++ " - " ++ jsOr d.service_date "TBD"

/-- DocumentService.getFallbackTasks: the hardcoded funeral-director task
checklist template. -/
def getFallbackTasks (d : ArrangementData) (today : String) : String :=
  tasksChecklistTitle ++ fallbackTasksBody d today

/-- DocumentService.getFallbackArrangerTasks: the hardcoded family-arranger
to-do template. -/
def getFallbackArrangerTasks (d : ArrangementData) (today : String) : String :=
  "# Family Arranger To-Do List\n" ++ getDeceasedFullName d ++
  "\n<div style=\"text-align: right;\">Generated: " ++ today ++ "</div>\n\n---\n\n" ++
  "## Immediate Tasks (Next 24 Hours)\n" ++
  "- [ ] Contact close family members and friends\n" ++
  "- [ ] Confirm service details: " ++ jsOr d.service_date "TBD" ++ " at " ++
  jsOr d.service_time "TBD" ++ "\n" ++
  "- [ ] Verify venue: " ++ jsOr d.funeral_service_place "TBD" ++ "\n\n" ++
  "## Pre-Service Tasks (2-4 Days Before)\n" ++
  "- [ ] Arrange catering for reception\n" ++
  "- [ ] Order flowers and arrangements\n" ++
  "- [ ] Prepare eulogy and readings\n" ++
  "- [ ] Coordinate family transportation\n" ++
  "- [ ] Send guest notifications\n\n" ++
  "## Day Before Service\n" ++
  "- [ ] Confirm all arrangements\n" ++
  "- [ ] Prepare memorial materials\n" ++
  "- [ ] Brief family on service order\n\n" ++
  "## Day of Service\n" ++
  "- [ ] Arrive early for setup\n" ++
  "- [ ] Coordinate with funeral director\n" ++
  "- [ ] Greet guests and manage reception\n\n" ++
  "## After Service\n" ++
  "- [ ] Send thank you notes\n" ++
  "- [ ] Handle final tasks\n" ++
  "- [ ] Coordinate memorial donations\n\n" ++
  "*Consult with your funeral director for additional requirements.*"

/-! ## DocumentService.generateDocument

The LLM interaction (`Promise.race` of the Gemini call against a 15-second
timer, the `!result || !result.response` check and the `response.text()`
extraction) is modelled by an explicit outcome: `failure msg` covers the
timeout rejection, a thrown error and a missing response; `content s` is a
delivered text which the source still rejects when `s.trim()` is empty. -/

inductive LLMResult where
  | failure (msg : String)
  | content (s : String)
deriving DecidableEq, Repr

/-- Content accepted by generateDocument's checks, if any. -/
def llmContent : LLMResult → Option String
  | .failure _ => none
  | .content s => if strTrim s = "" then none else some s

/-- Error message produced inside the try block when no content is accepted. -/
def llmError (ty : DocType) : LLMResult → Option String
  | .failure m => some m
  | .content s =>
    if strTrim s = "" then some ("Empty content received for " ++ tyStr ty ++ " document")
    else none

/-- DocumentService.generateDocument: returns the LLM content on success; on
any failure falls back to the hardcoded template for `arranger_tasks` and
`tasks` (no further LLM call) and re-raises for the other four types. -/
def generateDocument (ty : DocType) (d : ArrangementData) (today : String)
    (llm : LLMResult) : Except String String :=
  match llmContent llm with
  | some s => .ok s
  | none =>
    match ty with
    | .arranger_tasks => .ok (getFallbackArrangerTasks d today)
    | .tasks => .ok (getFallbackTasks d today)
    | _ =>
      .error ("Failed to generate " ++ tyStr ty ++ " document: " ++
        (llmError ty llm).getD "Unknown error")

/-! ## Base64 (Buffer.toString('base64') / Buffer.from(str, 'base64'))

Binary content is stored base64-encoded in the `content` text column.  Bytes
are modelled as natural numbers below 256. -/

def b64Alphabet : List Char :=
  "ABCDEFGHIJKLMNOPQRSTUVWXYZabcdefghijklmnopqrstuvwxyz0123456789+/".toList

def b64Char (n : Nat) : Char := (b64Alphabet.getD n 'A')

/-- Encode a byte list in groups of three bytes, with '=' padding. -/
def base64EncodeCore : List Nat → List Char
  | [] => []
  | [a] =>
    let v := (a % 256) * 65536
    [b64Char (v / 262144), b64Char (v / 4096 % 64), '=', '=']
  | [a, b] =>
    let v := (a % 256) * 65536 + (b % 256) * 256
    [b64Char (v / 262144), b64Char (v / 4096 % 64), b64Char (v / 64 % 64), '=']
  | a :: b :: c :: rest =>
    let v := (a % 256) * 65536 + (b % 256) * 256 + c % 256
    b64Char (v / 262144) :: b64Char (v / 4096 % 64) :: b64Char (v / 64 % 64) ::
      b64Char (v % 64) :: base64EncodeCore rest

def base64Encode (bytes : List Nat) : String := String.mk (base64EncodeCore bytes)

/-- Index of a character in the base64 alphabet ('=' and foreign characters
are dropped, mirroring Node's lenient decoder). -/
def b64Value (c : Char) : Option Nat :=
  let i := b64Alphabet.indexOf c
  if i < b64Alphabet.length then some i else none

/-- Decode quartets of 6-bit values into bytes; a trailing pair yields one
byte and a trailing triple yields two. -/
def base64DecodeCore : List Nat → List Nat
  | a :: b :: c :: d :: rest =>
    let v := a * 262144 + b * 4096 + c * 64 + d
    v / 65536 :: v / 256 % 256 :: v % 256 :: base64DecodeCore rest
  | [a, b] => [(a * 262144 + b * 4096) / 65536]
  | [a, b, c] =>
    let v := a * 262144 + b * 4096 + c * 64
    [v / 65536, v / 256 % 256]
  | _ => []

def base64Decode (s : String) : List Nat :=
  base64DecodeCore (s.toList.filterMap b64Value)

/-- Bytes of a string (Buffer.from(text)): its UTF-8 encoding. -/
def strBytes (s : String) : List Nat := s.toUTF8.toList.map (fun b => b.toNat)

/-! ## Database rows (shared/schema.ts), restricted to the columns the claims
touch.  Timestamps are naturals; nullable columns are Options. -/

structure UserR where
  id : Nat
  email : String
  name : String
  role : String
  billingPeriodStart : Nat
  updatedAt : Nat
deriving DecidableEq, Repr

structure TranscriptR where
  id : Nat
  userId : Nat
  filename : String
  content : String
  status : String
deriving DecidableEq, Repr

structure ArrangementR where
  id : Nat
  transcriptId : Nat
  userId : Nat
  extractedData : Option String
  approvalStatus : String
  approvedAt : Option Nat
deriving DecidableEq, Repr

structure DocumentRow where
  id : Nat
  arrangementId : Nat
  type : String
  title : String
  content : String
  plainTextContent : Option String
  status : String
deriving DecidableEq, Repr

structure TaskRow where
  arrangementId : Nat
  type : String
  title : String
  description : String
  priority : String
  dueDate : Nat
deriving DecidableEq, Repr

structure MetricR where
  userId : Nat
  metricType : String
  metricValue : Nat
  billingPeriodStart : Nat
deriving DecidableEq, Repr

structure BillingPeriodR where
  userId : Nat
  periodStart : Nat
  role : String
  transcriptsProcessed : Nat
  documentsGenerated : Nat
  isActive : Bool
deriving DecidableEq, Repr

structure PasswordResetR where
  email : String
  token : String
  expiresAt : Nat
deriving DecidableEq, Repr

/-- The relational store.  `nextDocId` models the serial primary key of the
documents table. -/
structure DB where
  users : List UserR
  transcripts : List TranscriptR
  arrangements : List ArrangementR
  documents : List DocumentRow
  funeralTasks : List TaskRow
  metrics : List MetricR
  billingPeriods : List BillingPeriodR
  passwordResets : List PasswordResetR
  nextDocId : Nat
deriving DecidableEq, Repr

/-! ## DatabaseStorage operations (storage.ts) -/

/-- DatabaseStorage.getUser: first row with the id. -/
def getUser (db : DB) (id : Nat) : Option UserR :=
  db.users.find? (fun u => u.id == id)

/-- DatabaseStorage.getUserByEmail. -/
def getUserByEmail (db : DB) (email : String) : Option UserR :=
  db.users.find? (fun u => u.email == email)

/-- DatabaseStorage.getArrangementById. -/
def getArrangementById (db : DB) (id : Nat) : Option ArrangementR :=
  db.arrangements.find? (fun a => a.id == id)

/-- DatabaseStorage.getTranscriptById: filters by id AND owning user. -/
def getTranscriptById (db : DB) (id userId : Nat) : Option TranscriptR :=
  db.transcripts.find? (fun t => t.id == id && t.userId == userId)

/-- DatabaseStorage.getDocumentById. -/
def getDocumentById (db : DB) (id : Nat) : Option DocumentRow :=
  db.documents.find? (fun d => d.id == id)

/-- DatabaseStorage.deleteDocument: `delete from documents where id = $1`. -/
def deleteDocument (db : DB) (id : Nat) : DB :=
  { db with documents := db.documents.filter (fun d => !(d.id == id)) }

/-- Insert payload for createDocument (id is assigned by the database). -/
structure InsertDocument where
  arrangementId : Nat
  type : String
  title : String
  content : String
  plainTextContent : Option String
  status : String
deriving DecidableEq, Repr

/-- DatabaseStorage.createDocument: inserts and returns the new row. -/
def createDocument (db : DB) (d : InsertDocument) : DB × DocumentRow :=
  let row : DocumentRow :=
    { id := db.nextDocId, arrangementId := d.arrangementId, type := d.type
      title := d.title, content := d.content
      plainTextContent := d.plainTextContent, status := d.status }
  ({ db with documents := db.documents ++ [row], nextDocId := db.nextDocId + 1 }, row)

/-- DatabaseStorage.createTask. -/
def createTask (db : DB) (t : TaskRow) : DB :=
  { db with funeralTasks := db.funeralTasks ++ [t] }

/-- DatabaseStorage.trackUsageMetric: silently does nothing when the user is
missing; otherwise inserts one metric row stamped with the user's current
billingPeriodStart. -/
def trackUsageMetric (db : DB) (userId : Nat) (metricType : String) : DB :=
  match getUser db userId with
  | none => db
  | some u =>
    { db with metrics := db.metrics ++
        [{ userId := userId, metricType := metricType, metricValue := 1
           billingPeriodStart := u.billingPeriodStart }] }

/-- DatabaseStorage.updateUserRole: sets role and updatedAt only. -/
def updateUserRole (db : DB) (userId : Nat) (role : String) (now : Nat) : DB :=
  { db with users := db.users.map (fun u =>
      if u.id == userId then { u with role := role, updatedAt := now } else u) }

/-- DatabaseStorage.createBillingPeriod. -/
def createBillingPeriod (db : DB) (r : BillingPeriodR) : DB :=
  { db with billingPeriods := db.billingPeriods ++ [r] }

/-- DatabaseStorage.updateUserRoleAndResetBilling: sets role, resets
billingPeriodStart to now, and inserts a fresh BillingPeriod snapshot. -/
def updateUserRoleAndResetBilling (db : DB) (userId : Nat) (role : String)
    (now : Nat) : DB :=
  let db1 := { db with users := db.users.map (fun u =>
      if u.id == userId then
        { u with role := role, billingPeriodStart := now, updatedAt := now }
      else u) }
  createBillingPeriod db1
    { userId := userId, periodStart := now, role := role
      transcriptsProcessed := 0, documentsGenerated := 0, isActive := true }

/-- DatabaseStorage.createPasswordReset. -/
def createPasswordReset (db : DB) (r : PasswordResetR) : DB :=
  { db with passwordResets := db.passwordResets ++ [r] }

/-! ## Simple HTTP responses -/

structure HResp where
  status : Nat
  message : String
deriving DecidableEq, Repr

/-! ## POST /api/auth/forgot-password (routes.ts)

The email-send result is ignored by the handler (a failure is only logged), so
it is not a parameter.  A missing or empty `email` field is falsy in JS and
yields the 400 branch. -/

def forgotPasswordGenericMsg : String :=
  "If an account with that email exists, we've sent a password reset link."

/-- Handler for POST /api/auth/forgot-password.  `token` models the random
reset token, `now` the current time; the expiry is one hour out. -/
def forgotPasswordHandler (db : DB) (email : Option String) (token : String)
    (now : Nat) : DB × HResp :=
  match email with
  | none => (db, { status := 400, message := "Email is required" })
  | some e =>
    if e = "" then (db, { status := 400, message := "Email is required" })
    else
      match getUserByEmail db e with
      | some u =>
        (createPasswordReset db
          { email := u.email, token := token, expiresAt := now + 3600000 },
         { status := 200, message := forgotPasswordGenericMsg })
      | none => (db, { status := 200, message := forgotPasswordGenericMsg })

/-! ## DELETE /api/documents/:id and GET /api/documents/:id/download
(routes.ts)

Both handlers receive the authenticated user's id from the JWT middleware but
never consult it: the lookup and the delete are by document id only. -/

/-- Handler for DELETE /api/documents/:id. -/
def deleteDocumentHandler (db : DB) (userId docId : Nat) : DB × HResp :=
  (deleteDocument db docId,
   { status := 200, message := "Document deleted successfully" })

inductive DownloadResp where
  | notFound (msg : String)
  | pdf (filename : String) (bytes : List Nat)
deriving DecidableEq, Repr

/-- Handler for GET /api/documents/:id/download: decodes the stored base64
content back to bytes and sends them as an attachment. -/
def downloadDocumentHandler (db : DB) (userId docId : Nat) : DownloadResp :=
  match getDocumentById db docId with
  | none => .notFound "Document not found"
  | some d => .pdf (d.title ++ ".pdf") (base64Decode d.content)

/-! ## PUT /api/admin/users/:id/role — route registration and dispatch

routes.ts registers two PUT routes whose patterns both match the path shape
/api/admin/users/<n>/role: the validating handler at routes.ts:316 (calls
updateUserRole) and the billing-reset handler at routes.ts:1272 (calls
updateUserRoleAndResetBilling).  Express dispatches a request to the first
registered route whose pattern matches, and neither handler calls next(), so
registration order decides which handler runs.  No other registered PUT route
has a five-segment /api/admin/users/:x/role shape. -/

inductive RoleHandlerTag where
  | withValidation
  | withBillingReset
deriving DecidableEq, Repr

/-- The two role routes in registration order (paths as segment lists). -/
def adminRoleRoutes : List (List String × RoleHandlerTag) :=
  [(["api", "admin", "users", ":id", "role"], .withValidation),
   (["api", "admin", "users", ":userId", "role"], .withBillingReset)]

/-- Express path-segment matching: a `:param` segment matches anything. -/
def segMatch (pat seg : String) : Bool := strStartsWith pat ":" || pat == seg

def patternMatches (pat path : List String) : Bool :=
  pat.length == path.length && (List.zip pat path).all (fun p => segMatch p.1 p.2)

/-- First-match route dispatch over the two registered role routes. -/
def dispatchAdminRole (path : List String) : Option RoleHandlerTag :=
  (adminRoleRoutes.find? (fun r => patternMatches r.1 path)).map (·.2)

/-- Handler registered first (routes.ts:316): validates the role value, guards
against self-demotion, then calls updateUserRole.  It does not touch
billingPeriodStart and inserts no BillingPeriod row. -/
def roleHandlerValidation (db : DB) (adminId targetId : Nat) (role : String)
    (now : Nat) : DB × HResp :=
  if !(role == "user" || role == "premium" || role == "admin") then
    (db, { status := 400, message := "Valid role is required (user, premium, admin)" })
  else if targetId == adminId && !(role == "admin") then
    (db, { status := 400, message := "Cannot change your own admin role" })
  else
    (updateUserRole db targetId role now,
     { status := 200, message := "ok" })

/-- Handler registered second (routes.ts:1272): resets the billing period.
Unreachable through Express dispatch (shadowed by the first route). -/
def roleHandlerBillingReset (db : DB) (targetId : Nat) (role : String)
    (now : Nat) : DB × HResp :=
  if role == "" then (db, { status := 400, message := "Role is required" })
  else
    (updateUserRoleAndResetBilling db targetId role now,
     { status := 200, message := "User role updated and billing period reset" })

/-! ## POST /api/arrangements/:id/approve (routes.ts:708)

External outcomes occurring in the handler are collected in an environment:
`parse` is the (deterministic) result of JSON.parse(arrangement.extractedData
|| '\x7b\x7d'), `llmPrimary`/`llmFallback` the per-type LLM outcomes of the
two DocumentService.generateDocument calls, `pdf` the per-type outcome of
PDFService.generatePDF (its produced bytes, or a thrown error), `llmTask` the
LLM outcome of the task-creation call, `today` the formatted date and `now`
the clock. -/

structure ApproveEnv where
  parse : Except String ArrangementData
  llmPrimary : DocType → LLMResult
  pdf : DocType → Except String (List Nat)
  llmFallback : DocType → LLMResult
  llmTask : LLMResult
  today : String
  now : Nat

/-- getDocumentTitle (routes.ts:688) restricted to the six known types. -/
def getDocumentTitle : DocType → String
  | .contract => "Funeral Services Contract"
  | .summary => "Arrangement Summary"
  | .obituary => "Obituary Draft"
  | .tasks => "Tasks List"
  | .arranger_tasks => "Arranger Task List"
  | .death_cert => "Death Certificate Information"

/-- JS `type.charAt(0).toUpperCase() + type.slice(1)`. -/
def capitalizeFirst (s : String) : String :=
  match s.data with
  | [] => ""
  | c :: cs => String.mk (c.toUpper :: cs)

/-- Title of the text-only fallback document created in the catch branch. -/
def textFallbackTitle (ty : DocType) : String :=
  capitalizeFirst (tyStr ty) ++ " Document (Text)"

/-- The fixed generation order (routes.ts:731). -/
def documentTypes : List DocType :=
  [.contract, .summary, .obituary, .tasks, .arranger_tasks, .death_cert]

/-- Outcome of the primary try block for one type: JSON.parse of the stored
blob, then DocumentService.generateDocument, then PDFService.generatePDF.
Any failure throws to the per-type catch. -/
def primaryOutcome (env : ApproveEnv) (ty : DocType) :
    Except String (String × List Nat) := do
  let d ← env.parse
  let text ← generateDocument ty d env.today (env.llmPrimary ty)
  let bytes ← env.pdf ty
  pure (text, bytes)

/-- Outcome of the catch-branch fallback: JSON.parse again, then a second
DocumentService.generateDocument call. -/
def fallbackOutcome (env : ApproveEnv) (ty : DocType) : Except String String := do
  let d ← env.parse
  generateDocument ty d env.today (env.llmFallback ty)

/-- Entry recorded in failedDocuments for one type: present exactly when the
primary try block threw, carrying its error message. -/
def failEntry (env : ApproveEnv) (ty : DocType) : Option (String × String) :=
  match primaryOutcome env ty with
  | .ok _ => none
  | .error e => some (tyStr ty, e)

/-- One iteration of the generation loop for document type `ty`: on primary
success store the PDF document and track a usage metric; on failure record the
failure and attempt a text-only fallback document (itself allowed to fail
silently). -/
def attemptType (db : DB) (userId arrangementId : Nat) (env : ApproveEnv)
    (ty : DocType) : DB × Option DocumentRow × Option (String × String) :=
  match primaryOutcome env ty with
  | .ok (text, bytes) =>
    let c := createDocument db
      { arrangementId := arrangementId, type := tyStr ty
        title := getDocumentTitle ty, content := base64Encode bytes
        plainTextContent := some text, status := "generated" }
    (trackUsageMetric c.1 userId "document_generated", some c.2, none)
  | .error e =>
    match fallbackOutcome env ty with
    | .ok text =>
      let c := createDocument db
        { arrangementId := arrangementId, type := tyStr ty
          title := textFallbackTitle ty
          content := base64Encode (strBytes text)
          plainTextContent := none, status := "generated" }
      (trackUsageMetric c.1 userId "document_generated", some c.2,
       some (tyStr ty, e))
    | .error _ => (db, none, some (tyStr ty, e))

/-- The generation loop over a list of types, accumulating the stored rows
(generatedDocuments) and the failure entries (failedDocuments) in order. -/
def runTypes (userId arrangementId : Nat) (env : ApproveEnv) :
    DB → List DocType → DB × List DocumentRow × List (String × String)
  | db, [] => (db, [], [])
  | db, ty :: rest =>
    let a := attemptType db userId arrangementId env ty
    let r := runTypes userId arrangementId env a.1 rest
    (r.1, a.2.1.toList ++ r.2.1, a.2.2.toList ++ r.2.2)

/-- Marking the arrangement approved (storage.updateArrangement with
approvalStatus and approvedAt): an SQL update of every row with the id. -/
def approveArrangement (db : DB) (arrangementId now : Nat) : DB :=
  { db with arrangements := db.arrangements.map (fun a =>
      if a.id == arrangementId then
        { a with approvalStatus := "approved", approvedAt := some now }
      else a) }

/-- The task-creation step after the loop (routes.ts:801): the source passes
the raw extractedData string where DocumentService expects the parsed object,
so every property access yields undefined (emptyArrangementData); type
'tasks' never throws, so a FuneralTask row is always created. -/
def createTaskStep (db : DB) (arrangementId : Nat) (env : ApproveEnv) : DB :=
  match generateDocument .tasks emptyArrangementData env.today env.llmTask with
  | .ok desc =>
    createTask db
      { arrangementId := arrangementId, type := "task"
        title := "Complete Funeral Arrangements", description := desc
        priority := "high", dueDate := env.now + 604800000 }
  | .error _ => db

inductive ApproveResp where
  | notFound (msg : String)
  | ok (documents : List DocumentRow) (failedDocuments : List (String × String))
      (arrangement : Option ArrangementR)
deriving DecidableEq, Repr

/-- Handler for POST /api/arrangements/:id/approve: look up the arrangement,
check the transcript belongs to the requesting user, mark approved, run the
six-type generation loop, create the follow-up task, and respond with the
generated and failed document lists. -/
def approveHandler (db : DB) (userId arrangementId : Nat) (env : ApproveEnv) :
    DB × ApproveResp :=
  match getArrangementById db arrangementId with
  | none => (db, .notFound "Arrangement not found")
  | some arr =>
    match getTranscriptById db arr.transcriptId userId with
    | none => (db, .notFound "Transcript not found")
    | some _ =>
      let db1 := approveArrangement db arrangementId env.now
      let r := runTypes userId arrangementId env db1 documentTypes
      let db3 := createTaskStep r.1 arrangementId env
      (db3, .ok r.2.1 r.2.2 (getArrangementById db3 arrangementId))

/-! ## POST /api/admin/reconcile-metrics (routes.ts:1157) -/

/-- Metric rows for a user, type and billing-period start (the
existingMetrics filter in the handler). -/
def countMetricRows (ms : List MetricR) (uid : Nat) (ty : String) (bps : Nat) : Nat :=
  (ms.filter (fun m => m.userId == uid && m.metricType == ty &&
    m.billingPeriodStart == bps)).length

/-- Transcripts of the user with status 'processed'. -/
def processedTranscriptCount (db : DB) (uid : Nat) : Nat :=
  (db.transcripts.filter (fun t => t.userId == uid && t.status == "processed")).length

/-- Rows of the documents x arrangements x transcripts inner join filtered by
the owning user (the actualDocuments query). -/
def userDocumentCount (db : DB) (uid : Nat) : Nat :=
  (db.documents.bind (fun d =>
    (db.arrangements.filter (fun a => a.id == d.arrangementId)).bind (fun a =>
      db.transcripts.filter (fun t => t.id == a.transcriptId && t.userId == uid)))).length

/-- `n` consecutive trackUsageMetric calls (the backfill for-loops; a negative
missing count runs the loop zero times, matching Nat subtraction). -/
def trackN (db : DB) (uid : Nat) (ty : String) : Nat → DB
  | 0 => db
  | n + 1 => trackN (trackUsageMetric db uid ty) uid ty n

/-- Reconciliation body for one user: read the existing per-period metric
counts once, then backfill the shortfall against the processed-transcript and
document counts. -/
def reconcileUser (db : DB) (u : UserR) : DB :=
  let eT := countMetricRows db.metrics u.id "transcript_processed" u.billingPeriodStart
  let eD := countMetricRows db.metrics u.id "document_generated" u.billingPeriodStart
  let p := processedTranscriptCount db u.id
  let d := userDocumentCount db u.id
  let db1 := trackN db u.id "transcript_processed" (p - eT)
  trackN db1 u.id "document_generated" (d - eD)

/-- Handler body of POST /api/admin/reconcile-metrics: iterate the user list
(snapshotted before the loop; reconcileUser never changes it). -/
def reconcileMetrics (db : DB) : DB :=
  db.users.foldl reconcileUser db

/-! ## ImprovedPDFService.parseMarkdownContent (improvedPdfService.ts:73) -/

inductive PItem where
  | header (level : Nat) (content : String) (fontSize : Nat)
  | separator
  | listItem (content : String)
  | paragraph (content : String)
deriving DecidableEq, Repr

/-- Match of `^#..#\s+` with `n` hashes: the line starts with exactly the
hash run followed by at least one whitespace character; the returned content
is the line with the hash run and the whitespace run stripped (the
`line.replace(/^#+\s+/, '')` of the source). -/
def hashHeaderContent (line : String) (n : Nat) : Option String :=
  let l := line.data
  if l.take n = List.replicate n '#' then
    match l.drop n with
    | c :: rest =>
      if c.isWhitespace then
        some (String.mk ((c :: rest).dropWhile Char.isWhitespace))
      else none
    | [] => none
  else none

/-- Match of `^\d+\.\s`, returning the rest of the line after the single
matched whitespace character. -/
def numberedRest (l : List Char) : Option (List Char) :=
  if (l.takeWhile Char.isDigit).isEmpty then none
  else
    match l.dropWhile Char.isDigit with
    | '.' :: c :: rest => if c.isWhitespace then some rest else none
    | _ => none

/-- The `line.replace(/^[-*]\s|^\d+\.\s/, '')` strip for list items. -/
def listItemContent (line : String) : String :=
  match line.data with
  | c :: d :: rest =>
    if (c = '-' || c = '*') && d.isWhitespace then String.mk rest
    else
      match numberedRest line.data with
      | some rest' => String.mk rest'
      | none => line
  | _ =>
    match numberedRest line.data with
    | some rest' => String.mk rest'
    | none => line

/-- Classification of one (already-trimmed) line, in the source's order:
headers longest-run first, then separators, then list items, then paragraph;
the empty line is skipped. -/
def classifyLine (line : String) : Option PItem :=
  if line = "" then none
  else
    match hashHeaderContent line 3 with
    | some c => some (.header 3 c 14)
    | none =>
      match hashHeaderContent line 2 with
      | some c => some (.header 2 c 16)
      | none =>
        match hashHeaderContent line 1 with
        | some c =>
          if !(strStartsWith line "##") then some (.header 1 c 18)
          else some (.paragraph line)
        | none =>
          if strStartsWith line "---" || line == "___" then some .separator
          else if strStartsWith line "- " || strStartsWith line "* " ||
              (numberedRest line.data).isSome then
            some (.listItem (listItemContent line))
          else some (.paragraph line)

/-- ImprovedPDFService.parseMarkdownContent: split on newlines, trim each
line, skip blanks, classify the rest. -/
def parseMarkdownContent (content : String) : List PItem :=
  ((splitChars (fun c => c = '\n') content.data).map String.mk).filterMap
    (fun l => classifyLine (strTrim l))

/-! ## EnhancedPDFService.markdownToHTML, header stage (pdfService.ts:813)

The source applies four global multiline replaces, longest hash run first
(`^#{4}\s*` down to `^#{1}\s*`); a line rewritten by an earlier replace starts
with '<' and is untouched by the later ones, so on one line the stage is this
if-chain.  The `\s*` matches the empty string, so the follow-up "headers
without spaces" replaces of the source are unreachable. -/

def dropLeadingWs (s : String) : String :=
  String.mk (s.data.dropWhile Char.isWhitespace)

def markdownToHTMLHeader (line : String) : String :=
  if strStartsWith line "####" then "<h4>" ++ dropLeadingWs (strDrop line 4) ++ "</h4>"
  else if strStartsWith line "###" then "<h3>" ++ dropLeadingWs (strDrop line 3) ++ "</h3>"
  else if strStartsWith line "##" then "<h2>" ++ dropLeadingWs (strDrop line 2) ++ "</h2>"
  else if strStartsWith line "#" then "<h1>" ++ dropLeadingWs (strDrop line 1) ++ "</h1>"
  else line

/-! ## ImprovedPDFService.parseInlineFormatting (improvedPdfService.ts:239)

The source repeatedly executes /\*\*([^*]+)\*\*/g: each match emits the text
before it (kept only when its trim is non-empty) and a bold segment; the
remainder after the last match is kept under the same trim condition. -/

structure Seg where
  text : String
  bold : Bool
deriving DecidableEq, Repr

/-- Attempt to close a bold run at the start of `l` (the part after an
opening "**"): a maximal non-empty run of non-asterisk characters followed by
a closing "**". -/
def grabBold (l : List Char) : Option (List Char × List Char) :=
  let content := l.takeWhile (fun c => c != '*')
  if content.isEmpty then none
  else
    match l.dropWhile (fun c => c != '*') with
    | '*' :: '*' :: after => some (content, after)
    | _ => none

/-- Merge a leading character into the first plain segment (building up the
maximal before-text / remainder runs of the JS scan). -/
def prependPlain (c : Char) : List Seg → List Seg
  | ⟨t, false⟩ :: rest => ⟨String.mk (c :: t.data), false⟩ :: rest
  | segs => ⟨String.mk [c], false⟩ :: segs

/-- Left-to-right scan for /\*\*([^*]+)\*\*/ matches: at a position starting
with "**" whose bold run closes, emit the bold segment and continue after it;
otherwise advance one character (the JS regex engine's retry position).  The
fuel argument makes the recursion structural; every step consumes at least
one character, so fuel = length never runs out. -/
def boldSplitF : Nat → List Char → List Seg
  | _, [] => []
  | 0, l => [⟨String.mk l, false⟩]
  | fuel + 1, '*' :: '*' :: rest =>
    (match grabBold rest with
     | some (c, after) => ⟨String.mk c, true⟩ :: boldSplitF fuel after
     | none => prependPlain '*' (boldSplitF fuel ('*' :: rest)))
  | fuel + 1, c :: rest => prependPlain c (boldSplitF fuel rest)

def boldSplit (l : List Char) : List Seg := boldSplitF l.length l

/-- ImprovedPDFService.parseInlineFormatting: the scan above, with plain
segments whose trim is empty dropped (the source's `if (beforeText.trim())`
and remainder checks); bold segments are kept unconditionally. -/
def parseInlineFormatting (s : String) : List Seg :=
  (boldSplit s.data).filter (fun sg => sg.bold || strTrim sg.text != "")

/-! ## ImprovedPDFService layout engine (addFormattedContent /
renderFormattedText, improvedPdfService.ts:173-337)

jsPDF externals are abstracted into the environment: `textWidth` models
doc.getTextWidth under the ambient font and `splitToSize` models
doc.splitTextToSize.  Page geometry is the margin, content width and page
height the caller computes from the A4 document; lineHeight is the literal 15
and the bottom margin the literal 80 of the source. -/

structure LayoutEnv where
  textWidth : String → Nat
  splitToSize : String → Nat → List String
  margin : Nat
  contentWidth : Nat
  pageHeight : Nat

/-- A drawing operation of the direct-draw backend: a text run placed at
absolute coordinates, a horizontal rule, or a page break (doc.addPage). -/
inductive Placed where
  | line (text : String) (x y : Nat)
  | rule (y : Nat)
  | pageBreak
deriving DecidableEq, Repr

/-- The `segment.text.split(/\s+/).filter(w => w.length > 0)` word split. -/
def splitWords (s : String) : List String :=
  ((splitChars Char.isWhitespace s.data).map String.mk).filter (fun w => w != "")

/-- Word loop of renderFormattedText: greedy wrap against
`startX + maxWidth`; wrapping advances y by the line height 15 and resets x,
with no page-break check.  Returns the emitted text operations and the final
(x, y) cursor. -/
def renderWords (tw : String → Nat) (startX maxWidth : Nat) :
    List String → Nat → Nat → List Placed × Nat × Nat
  | [], x, y => ([], x, y)
  | w :: rest, x, y =>
    let isLast := rest.isEmpty
    let fullWord := if isLast then w else w ++ " "
    let wordWidth := tw fullWord
    let (x1, y1) :=
      if x + wordWidth > startX + maxWidth && x > startX then (startX, y + 15)
      else (x, y)
    let x2 := x1 + tw w
    let x3 := if isLast then x2 else x2 + tw " "
    let (ops, xf, yf) := renderWords tw startX maxWidth rest x3 y1
    (Placed.line w x1 y1 :: ops, xf, yf)

/-- Segment loop of renderFormattedText: whitespace-only segments are
skipped; the cursor is threaded across segments. -/
def renderSegs (tw : String → Nat) (startX maxWidth : Nat) :
    List Seg → Nat → Nat → List Placed × Nat × Nat
  | [], x, y => ([], x, y)
  | sg :: rest, x, y =>
    if strTrim sg.text = "" then renderSegs tw startX maxWidth rest x y
    else
      let (ops, x1, y1) := renderWords tw startX maxWidth (splitWords sg.text) x y
      let (ops2, x2, y2) := renderSegs tw startX maxWidth rest x1 y1
      (ops ++ ops2, x2, y2)

/-- ImprovedPDFService.renderFormattedText: starts at x = startX, returns the
final currentY. -/
def renderFormattedText (tw : String → Nat) (segs : List Seg)
    (startX maxWidth y : Nat) : List Placed × Nat :=
  let r := renderSegs tw startX maxWidth segs startX y
  (r.1, r.2.2)

/-- Successive lines of a multi-line doc.text(headerLines, margin, y) call,
one baseline every 15 units. -/
def headerOps (m y1 : Nat) : List String → List Placed
  | [] => []
  | t :: ts => Placed.line t m y1 :: headerOps m (y1 + 15) ts

/-- Body of one iteration of the addFormattedContent switch (after the
page-break check): returns the drawing ops of the item and the new cursor.
List items discard the y returned by renderFormattedText (the source ignores
the call's result and advances by lineHeight + 3). -/
def layoutItem (env : LayoutEnv) (y : Nat) : PItem → List Placed × Nat
  | .header _ content _ =>
    let y1 := y + 15
    let hl := env.splitToSize content env.contentWidth
    (headerOps env.margin y1 hl, y1 + hl.length * 15 + 15)
  | .separator => ([Placed.rule (y + 8)], y + 8 + 20)
  | .listItem content =>
    let segs := parseInlineFormatting content
    let r := renderFormattedText env.textWidth segs (env.margin + 25)
      (env.contentWidth - 25) y
    (Placed.line "•" (env.margin + 10) y :: r.1, y + 15 + 3)
  | .paragraph content =>
    let segs := parseInlineFormatting content
    let r := renderFormattedText env.textWidth segs env.margin env.contentWidth y
    (r.1, r.2 + 12)

/-- ImprovedPDFService.addFormattedContent: before each item, if the cursor
exceeds pageHeight - 80 a page break is emitted and the cursor resets to
margin + 20; the item is then laid out.  Returns the operation stream and the
final cursor. -/
def addFormattedContent (env : LayoutEnv) :
    List PItem → Nat → List Placed × Nat
  | [], y => ([], y)
  | it :: rest, y =>
    let brk := if y > env.pageHeight - 80 then ([Placed.pageBreak], env.margin + 20)
      else (([] : List Placed), y)
    let r1 := layoutItem env brk.2 it
    let r2 := addFormattedContent env rest r1.2
    (brk.1 ++ r1.1 ++ r2.1, r2.2)

/-- The cursor position at which each item's layout begins (just after the
per-item page-break check). -/
def itemStartYs (env : LayoutEnv) : List PItem → Nat → List Nat
  | [], _ => []
  | it :: rest, y =>
    let y0 := if y > env.pageHeight - 80 then env.margin + 20 else y
    y0 :: itemStartYs env rest (layoutItem env y0 it).2

/-! ## Claims -/

/-- Claim C2: when the LLM call fails for DocumentService.generateDocument
(15-second timeout, empty response, or thrown error), type 'tasks' does not
re-raise but returns the non-empty hardcoded template starting with
'# Funeral Director Task Checklist'; type 'arranger_tasks' likewise falls
back to the hardcoded arranger template with no further LLM call; the other
four types re-raise to the caller. -/
theorem C2_generateDocument_fallbacks (d : ArrangementData) (today : String)
    (llm : LLMResult) (h : llmContent llm = none) :
    generateDocument .tasks d today llm = .ok (getFallbackTasks d today) ∧
    getFallbackTasks d today ≠ "" ∧
    (∃ rest, getFallbackTasks d today = "# Funeral Director Task Checklist" ++ rest) ∧
    generateDocument .arranger_tasks d today llm =
      .ok (getFallbackArrangerTasks d today) ∧
    (∀ ty, ty = DocType.contract ∨ ty = DocType.summary ∨ ty = DocType.obituary ∨
        ty = DocType.death_cert →
      ∃ e, generateDocument ty d today llm = .error e) := by
  refine ⟨by simp [generateDocument, h], ?_, ⟨fallbackTasksBody d today, rfl⟩,
    by simp [generateDocument, h], ?_⟩
  · intro hc
    have hd := congrArg String.data hc
    rw [getFallbackTasks, String.data_append] at hd
    have h0 : tasksChecklistTitle.data = [] := (List.append_eq_nil.mp hd).1
    simp [tasksChecklistTitle] at h0
  · rintro ty (rfl | rfl | rfl | rfl) <;> exact ⟨_, by rw [generateDocument.eq_def, h]⟩

/-- Witness for C2 at a concrete timed-out LLM call. -/
theorem C2_generateDocument_fallbacks_witness :
    llmContent (LLMResult.failure "AI service timeout - request took too long") = none ∧
    (generateDocument .tasks emptyArrangementData "January 1, 2025"
        (LLMResult.failure "AI service timeout - request took too long") =
      .ok (getFallbackTasks emptyArrangementData "January 1, 2025") ∧
     getFallbackTasks emptyArrangementData "January 1, 2025" ≠ "" ∧
     (∃ rest, getFallbackTasks emptyArrangementData "January 1, 2025" =
        "# Funeral Director Task Checklist" ++ rest) ∧
     generateDocument .arranger_tasks emptyArrangementData "January 1, 2025"
        (LLMResult.failure "AI service timeout - request took too long") =
      .ok (getFallbackArrangerTasks emptyArrangementData "January 1, 2025") ∧
     (∀ ty, ty = DocType.contract ∨ ty = DocType.summary ∨ ty = DocType.obituary ∨
         ty = DocType.death_cert →
       ∃ e, generateDocument ty emptyArrangementData "January 1, 2025"
          (LLMResult.failure "AI service timeout - request took too long") =
            .error e)) :=
  ⟨rfl, C2_generateDocument_fallbacks _ _ _ rfl⟩

/-- Claim C7: for every non-empty email, the forgot-password response is the
identical generic 200 success message whether or not a user account with that
email exists; account existence is not observable from the response. -/
theorem C7_forgot_password_uniform (db : DB) (email token : String) (now : Nat)
    (h : email ≠ "") :
    (forgotPasswordHandler db (some email) token now).2 =
      { status := 200, message := forgotPasswordGenericMsg } := by
  cases hu : getUserByEmail db email <;> simp [forgotPasswordHandler, h, hu]

def c7DB : DB :=
  { users := [{ id := 1, email := "a@b.c", name := "A", role := "user"
                billingPeriodStart := 0, updatedAt := 0 }]
    transcripts := [], arrangements := [], documents := [], funeralTasks := []
    metrics := [], billingPeriods := [], passwordResets := [], nextDocId := 1 }

/-- Witness for C7: a concrete request whose email does exist (and, by the
same theorem applied to the empty database, would not). -/
theorem C7_forgot_password_uniform_witness :
    ("a@b.c" : String) ≠ "" ∧
    (forgotPasswordHandler c7DB (some "a@b.c") "tok" 50).2 =
      { status := 200, message := forgotPasswordGenericMsg } :=
  ⟨by decide, C7_forgot_password_uniform c7DB "a@b.c" "tok" 50 (by decide)⟩

/-- Claim C8: DELETE /api/documents/:id removes exactly the document rows
with that id and leaves every other document, the arrangements and the
funeral tasks unchanged, responding with a 200 success message. -/
theorem C8_delete_document_frame (db : DB) (userId docId : Nat)
    (h : ∃ d ∈ db.documents, d.id = docId) :
    (deleteDocumentHandler db userId docId).1.documents =
      db.documents.filter (fun d => !(d.id == docId)) ∧
    (∀ d ∈ (deleteDocumentHandler db userId docId).1.documents,
      d ∈ db.documents ∧ d.id ≠ docId) ∧
    (∀ d ∈ db.documents, d.id ≠ docId →
      d ∈ (deleteDocumentHandler db userId docId).1.documents) ∧
    (deleteDocumentHandler db userId docId).1.documents.length <
      db.documents.length ∧
    (deleteDocumentHandler db userId docId).1.arrangements = db.arrangements ∧
    (deleteDocumentHandler db userId docId).1.funeralTasks = db.funeralTasks ∧
    (deleteDocumentHandler db userId docId).2 =
      { status := 200, message := "Document deleted successfully" } := by
  refine ⟨rfl, ?_, ?_, ?_, rfl, rfl, rfl⟩
  · intro d hd
    simp only [deleteDocumentHandler, deleteDocument, List.mem_filter,
      Bool.not_eq_true', beq_eq_false_iff_ne, ne_eq] at hd
    exact ⟨hd.1, hd.2⟩
  · intro d hd hne
    simp only [deleteDocumentHandler, deleteDocument, List.mem_filter,
      Bool.not_eq_true', beq_eq_false_iff_ne, ne_eq]
    exact ⟨hd, hne⟩
  · obtain ⟨d, hd, hid⟩ := h
    exact List.length_filter_lt_length_iff_exists.mpr ⟨d, hd, by simp [hid]⟩

def c8DB : DB :=
  { users := [], transcripts := [], arrangements := []
    documents :=
      [{ id := 10, arrangementId := 7, type := "contract"
         title := "Funeral Services Contract", content := "QUJD"
         plainTextContent := none, status := "generated" },
       { id := 11, arrangementId := 7, type := "summary"
         title := "Arrangement Summary", content := "QUJE"
         plainTextContent := none, status := "generated" }]
    funeralTasks := [{ arrangementId := 7, type := "task", title := "T"
                       description := "d", priority := "high", dueDate := 0 }]
    metrics := [], billingPeriods := [], passwordResets := [], nextDocId := 12 }

/-- Witness for C8 at a concrete database holding two documents and a task. -/
theorem C8_delete_document_frame_witness :
    (∃ d ∈ c8DB.documents, d.id = 10) ∧
    ((deleteDocumentHandler c8DB 1 10).1.documents =
      c8DB.documents.filter (fun d => !(d.id == 10)) ∧
     (∀ d ∈ (deleteDocumentHandler c8DB 1 10).1.documents,
       d ∈ c8DB.documents ∧ d.id ≠ 10) ∧
     (∀ d ∈ c8DB.documents, d.id ≠ 10 →
       d ∈ (deleteDocumentHandler c8DB 1 10).1.documents) ∧
     (deleteDocumentHandler c8DB 1 10).1.documents.length <
       c8DB.documents.length ∧
     (deleteDocumentHandler c8DB 1 10).1.arrangements = c8DB.arrangements ∧
     (deleteDocumentHandler c8DB 1 10).1.funeralTasks = c8DB.funeralTasks ∧
     (deleteDocumentHandler c8DB 1 10).2 =
       { status := 200, message := "Document deleted successfully" }) :=
  ⟨by decide, C8_delete_document_frame c8DB 1 10 (by decide)⟩

/-- Claim C10: the document download and delete endpoints look the document
up by id only and perform no ownership check: for every authenticated user
and every existing document id — including documents whose parent arrangement
belongs to a different user's transcript — download returns the document's
bytes and delete removes the row, identically for any two requesting users. -/
theorem C10_no_ownership_check (db : DB) (u1 u2 docId : Nat) (d : DocumentRow)
    (h : getDocumentById db docId = some d) :
    downloadDocumentHandler db u1 docId =
      .pdf (d.title ++ ".pdf") (base64Decode d.content) ∧
    downloadDocumentHandler db u1 docId = downloadDocumentHandler db u2 docId ∧
    deleteDocumentHandler db u1 docId = deleteDocumentHandler db u2 docId ∧
    (∀ d' ∈ (deleteDocumentHandler db u1 docId).1.documents, d'.id ≠ docId) := by
  refine ⟨by simp [downloadDocumentHandler, h], rfl, rfl, ?_⟩
  intro d' hd'
  simp only [deleteDocumentHandler, deleteDocument, List.mem_filter,
    Bool.not_eq_true', beq_eq_false_iff_ne, ne_eq] at hd'
  exact hd'.2

def c10Doc : DocumentRow :=
  { id := 10, arrangementId := 7, type := "contract"
    title := "Funeral Services Contract", content := "QUJD"
    plainTextContent := none, status := "generated" }

/-- Database in which document 10 belongs, through arrangement 7 and
transcript 5, to user 2 — and is fetched and deleted by user 1. -/
def c10DB : DB :=
  { users := [{ id := 1, email := "one@x.com", name := "One", role := "user"
                billingPeriodStart := 0, updatedAt := 0 },
              { id := 2, email := "two@x.com", name := "Two", role := "user"
                billingPeriodStart := 0, updatedAt := 0 }]
    transcripts := [{ id := 5, userId := 2, filename := "t.txt"
                      content := "hello", status := "processed" }]
    arrangements := [{ id := 7, transcriptId := 5, userId := 2
                       extractedData := none, approvalStatus := "approved"
                       approvedAt := some 10 }]
    documents := [c10Doc]
    funeralTasks := [], metrics := [], billingPeriods := []
    passwordResets := [], nextDocId := 11 }

/-- Witness for C10: user 1 downloads and deletes user 2's document. -/
theorem C10_no_ownership_check_witness :
    getDocumentById c10DB 10 = some c10Doc ∧
    (downloadDocumentHandler c10DB 1 10 =
      .pdf (c10Doc.title ++ ".pdf") (base64Decode c10Doc.content) ∧
     downloadDocumentHandler c10DB 1 10 = downloadDocumentHandler c10DB 2 10 ∧
     deleteDocumentHandler c10DB 1 10 = deleteDocumentHandler c10DB 2 10 ∧
     (∀ d' ∈ (deleteDocumentHandler c10DB 1 10).1.documents, d'.id ≠ 10)) :=
  ⟨by decide, C10_no_ownership_check c10DB 1 2 10 c10Doc (by decide)⟩

/-- Claim C4 counterexample: the claim asserts that both rendering backends
parse '##Header' (no space) as a level-2 header, but the direct-draw
backend's parser (ImprovedPDFService.parseMarkdownContent) requires
whitespace after the hash run and degrades '##Header' to a plain paragraph. -/
theorem C4_counterexample :
    parseMarkdownContent "##Header" = [PItem.paragraph "##Header"] := by decide

/-- Claim C4 (amended): the HTML backend (EnhancedPDFService.markdownToHTML)
parses both '## Header' and '##Header' to a level-2 header with text
'Header'; the direct-draw backend (ImprovedPDFService.parseMarkdownContent)
parses '## Header' to a level-2 header with text 'Header' but degrades
'##Header' (no space after the hashes) to a plain paragraph; in both
backends longer hash-runs are matched before shorter ones, so '##' input is
never parsed as a level-1 header. -/
theorem C4_amended_header_parsing :
    markdownToHTMLHeader "## Header" = "<h2>Header</h2>" ∧
    markdownToHTMLHeader "##Header" = "<h2>Header</h2>" ∧
    parseMarkdownContent "## Header" = [PItem.header 2 "Header" 16] ∧
    parseMarkdownContent "##Header" = [PItem.paragraph "##Header"] ∧
    parseMarkdownContent "### Header" = [PItem.header 3 "Header" 14] ∧
    parseMarkdownContent "# Header" = [PItem.header 1 "Header" 18] ∧
    markdownToHTMLHeader "### Header" = "<h3>Header</h3>" ∧
    markdownToHTMLHeader "#### Header" = "<h4>Header</h4>" := by decide

def c5DB : DB :=
  { users := [{ id := 1, email := "admin@x.com", name := "Admin", role := "admin"
                billingPeriodStart := 100, updatedAt := 0 },
              { id := 2, email := "user@x.com", name := "User", role := "user"
                billingPeriodStart := 100, updatedAt := 0 }]
    transcripts := [], arrangements := [], documents := [], funeralTasks := []
    metrics := [], billingPeriods := [], passwordResets := [], nextDocId := 1 }

/-- Claim C5 (code bug): every request of shape PUT
/api/admin/users/(n)/role is dispatched by Express to the first-registered
handler (routes.ts:316), which only calls updateUserRole: the user's role is
updated but billingPeriodStart is untouched and no BillingPeriod row is
inserted — the billing-reset handler (routes.ts:1272) is unreachable.  The
concrete part evaluates an admin (id 1) changing user 2's role to 'premium'
at time 999. -/
theorem C5_role_route_shadowed :
    (∀ seg : String, dispatchAdminRole ["api", "admin", "users", seg, "role"] =
      some RoleHandlerTag.withValidation) ∧
    (∀ (db : DB) (adminId targetId : Nat) (role : String) (now : Nat),
      (roleHandlerValidation db adminId targetId role now).1.users.map
          (fun u => u.billingPeriodStart) =
        db.users.map (fun u => u.billingPeriodStart) ∧
      (roleHandlerValidation db adminId targetId role now).1.billingPeriods =
        db.billingPeriods) ∧
    ((roleHandlerValidation c5DB 1 2 "premium" 999).1.users =
      [{ id := 1, email := "admin@x.com", name := "Admin", role := "admin"
         billingPeriodStart := 100, updatedAt := 0 },
       { id := 2, email := "user@x.com", name := "User", role := "premium"
         billingPeriodStart := 100, updatedAt := 999 }] ∧
     (roleHandlerValidation c5DB 1 2 "premium" 999).1.billingPeriods = [] ∧
     (roleHandlerValidation c5DB 1 2 "premium" 999).2.status = 200) := by
  refine ⟨fun seg => rfl, ?_, by decide⟩
  intro db adminId targetId role now
  unfold roleHandlerValidation updateUserRole
  refine ⟨?_, ?_⟩
  · split
    · rfl
    · split
      · rfl
      · simp only [List.map_map]
        refine List.map_congr_left ?_
        intro u _
        by_cases hu : u.id = targetId <;> simp [hu]
  · split
    · rfl
    · split <;> rfl

/-- Claim C3 (amended): in the direct-draw layout engine, the page-break
check runs only at block-item boundaries: whenever margin + 20 fits within
pageHeight - 80, every item begins layout at a cursor y ≤ pageHeight - 80
(a break resets the cursor to margin + 20).  Lines wrapped inside a single
item are not subject to the check, so a placed line's y can exceed that
bound and the break count is not ceil(total_height / page_height) in
general (see the counterexample). -/
theorem C3_amended_item_start_bound (env : LayoutEnv) (items : List PItem)
    (startY : Nat) (h : env.margin + 20 ≤ env.pageHeight - 80) :
    ∀ y ∈ itemStartYs env items startY, y ≤ env.pageHeight - 80 := by
  induction items generalizing startY with
  | nil => intro y hy; simp [itemStartYs] at hy
  | cons it rest ih =>
    intro y hy
    rw [itemStartYs] at hy
    by_cases hc : startY > env.pageHeight - 80
    · simp only [hc, if_pos, List.mem_cons] at hy
      rcases hy with rfl | hy
      · exact h
      · exact ih _ y hy
    · simp only [hc, if_neg, List.mem_cons] at hy
      rcases hy with rfl | hy
      · omega
      · exact ih _ y hy

def c3Env : LayoutEnv :=
  { textWidth := fun s => 10 * s.length
    splitToSize := fun s _ => [s]
    margin := 10, contentWidth := 20, pageHeight := 150 }

def c3Items : List PItem :=
  parseMarkdownContent "aa aa aa aa aa aa aa aa aa aa aa aa"

/-- Witness for the amended Claim C3 at the concrete layout environment. -/
theorem C3_amended_item_start_bound_witness :
    c3Env.margin + 20 ≤ c3Env.pageHeight - 80 ∧
    (∀ y ∈ itemStartYs c3Env c3Items 30, y ≤ c3Env.pageHeight - 80) :=
  ⟨by decide, C3_amended_item_start_bound c3Env c3Items 30 (by decide)⟩

/-- Claim C3 counterexample: a single paragraph token stream whose rendered
height exceeds one page (placed lines descend to y = 195 on a page of height
150) is laid out with zero page breaks, and placed lines are drawn at y
coordinates exceeding pageHeight - 80 = 70 — refuting both the exact
ceil(total_height / page_height) break count and the y bound. -/
theorem C3_counterexample :
    ((addFormattedContent c3Env c3Items 30).1.any (fun p =>
      match p with
      | Placed.line _ _ y => decide (c3Env.pageHeight - 80 < y)
      | _ => false)) = true ∧
    ((addFormattedContent c3Env c3Items 30).1.any (fun p =>
      match p with
      | Placed.pageBreak => true
      | _ => false)) = false ∧
    Placed.line "aa" 10 195 ∈ (addFormattedContent c3Env c3Items 30).1 := by
  decide

/-! ## Lemmas for the reconcile-metrics idempotence claim -/

/-- A step that can only append usage-metric rows: every other table (and the
document id counter) is unchanged. -/
def MetricsOnly (db db' : DB) : Prop :=
  db'.users = db.users ∧ db'.transcripts = db.transcripts ∧
  db'.arrangements = db.arrangements ∧ db'.documents = db.documents ∧
  db'.funeralTasks = db.funeralTasks ∧ db'.billingPeriods = db.billingPeriods ∧
  db'.passwordResets = db.passwordResets ∧ db'.nextDocId = db.nextDocId

theorem MetricsOnly.rfl (db : DB) : MetricsOnly db db :=
  ⟨Eq.refl _, Eq.refl _, Eq.refl _, Eq.refl _, Eq.refl _, Eq.refl _, Eq.refl _, Eq.refl _⟩

theorem MetricsOnly.trans {a b c : DB} (h1 : MetricsOnly a b)
    (h2 : MetricsOnly b c) : MetricsOnly a c :=
  ⟨h2.1.trans h1.1, h2.2.1.trans h1.2.1, h2.2.2.1.trans h1.2.2.1,
   h2.2.2.2.1.trans h1.2.2.2.1, h2.2.2.2.2.1.trans h1.2.2.2.2.1,
   h2.2.2.2.2.2.1.trans h1.2.2.2.2.2.1, h2.2.2.2.2.2.2.1.trans h1.2.2.2.2.2.2.1,
   h2.2.2.2.2.2.2.2.trans h1.2.2.2.2.2.2.2⟩

theorem trackUsageMetric_metricsOnly (db : DB) (uid : Nat) (ty : String) :
    MetricsOnly db (trackUsageMetric db uid ty) := by
  unfold trackUsageMetric
  cases getUser db uid <;> exact ⟨rfl, rfl, rfl, rfl, rfl, rfl, rfl, rfl⟩

theorem trackN_metricsOnly (uid : Nat) (ty : String) (n : Nat) (db : DB) :
    MetricsOnly db (trackN db uid ty n) := by
  induction n generalizing db with
  | zero => exact MetricsOnly.rfl db
  | succ n ih =>
    exact (trackUsageMetric_metricsOnly db uid ty).trans (ih _)

theorem getUser_eq_of {db db' : DB} (h : MetricsOnly db db') (uid : Nat) :
    getUser db' uid = getUser db uid := by
  unfold getUser; rw [h.1]

theorem processedTranscriptCount_eq_of {db db' : DB} (h : MetricsOnly db db')
    (uid : Nat) : processedTranscriptCount db' uid = processedTranscriptCount db uid := by
  unfold processedTranscriptCount; rw [h.2.1]

theorem userDocumentCount_eq_of {db db' : DB} (h : MetricsOnly db db')
    (uid : Nat) : userDocumentCount db' uid = userDocumentCount db uid := by
  unfold userDocumentCount; rw [h.2.1, h.2.2.1, h.2.2.2.1]

theorem trackUsageMetric_metrics {db : DB} {uid : Nat} {u : UserR} (ty : String)
    (h : getUser db uid = some u) :
    (trackUsageMetric db uid ty).metrics =
      db.metrics ++ [{ userId := uid, metricType := ty, metricValue := 1
                       billingPeriodStart := u.billingPeriodStart }] := by
  unfold trackUsageMetric; rw [h]

theorem trackN_metrics {db : DB} {uid : Nat} {u : UserR} (ty : String) (n : Nat)
    (h : getUser db uid = some u) :
    (trackN db uid ty n).metrics =
      db.metrics ++ List.replicate n
        { userId := uid, metricType := ty, metricValue := 1
          billingPeriodStart := u.billingPeriodStart } := by
  induction n generalizing db with
  | zero => simp [trackN]
  | succ n ih =>
    rw [trackN]
    have h2 : getUser (trackUsageMetric db uid ty) uid = some u := by
      rw [getUser_eq_of (trackUsageMetric_metricsOnly db uid ty)]; exact h
    rw [ih h2, trackUsageMetric_metrics ty h, List.replicate_succ, List.append_assoc]
    rfl

theorem trackN_none {db : DB} {uid : Nat} (ty : String) (n : Nat)
    (h : getUser db uid = none) : trackN db uid ty n = db := by
  induction n with
  | zero => rfl
  | succ n ih =>
    rw [trackN]
    have hm : trackUsageMetric db uid ty = db := by
      unfold trackUsageMetric; rw [h]
    rw [hm]; exact ih

theorem trackN_metrics_append (db : DB) (uid : Nat) (ty : String) (n : Nat) :
    ∃ ext, (trackN db uid ty n).metrics = db.metrics ++ ext := by
  cases h : getUser db uid with
  | some u => exact ⟨_, trackN_metrics ty n h⟩
  | none => exact ⟨[], by rw [trackN_none ty n h, List.append_nil]⟩

theorem countMetricRows_append (ms1 ms2 : List MetricR) (uid : Nat) (ty : String)
    (bps : Nat) :
    countMetricRows (ms1 ++ ms2) uid ty bps =
      countMetricRows ms1 uid ty bps + countMetricRows ms2 uid ty bps := by
  simp [countMetricRows, List.filter_append]

theorem countMetricRows_replicate (r : MetricR) (n : Nat) (uid : Nat)
    (ty : String) (bps : Nat) :
    countMetricRows (List.replicate n r) uid ty bps =
      if r.userId == uid && r.metricType == ty && r.billingPeriodStart == bps
      then n else 0 := by
  rw [countMetricRows, List.filter_replicate]
  split <;> simp

theorem countMetricRows_le_append (ms ext : List MetricR) (uid : Nat)
    (ty : String) (bps : Nat) :
    countMetricRows ms uid ty bps ≤ countMetricRows (ms ++ ext) uid ty bps := by
  rw [countMetricRows_append]; omega

theorem reconcileUser_metricsOnly (db : DB) (u : UserR) :
    MetricsOnly db (reconcileUser db u) := by
  unfold reconcileUser
  exact (trackN_metricsOnly _ _ _ _).trans (trackN_metricsOnly _ _ _ _)

theorem reconcileUser_metrics {db : DB} {u : UserR} (h : getUser db u.id = some u) :
    (reconcileUser db u).metrics =
      db.metrics ++
        List.replicate (processedTranscriptCount db u.id -
            countMetricRows db.metrics u.id "transcript_processed" u.billingPeriodStart)
          { userId := u.id, metricType := "transcript_processed", metricValue := 1
            billingPeriodStart := u.billingPeriodStart } ++
        List.replicate (userDocumentCount db u.id -
            countMetricRows db.metrics u.id "document_generated" u.billingPeriodStart)
          { userId := u.id, metricType := "document_generated", metricValue := 1
            billingPeriodStart := u.billingPeriodStart } := by
  unfold reconcileUser
  have h1 : getUser (trackN db u.id "transcript_processed"
      (processedTranscriptCount db u.id -
        countMetricRows db.metrics u.id "transcript_processed" u.billingPeriodStart))
      u.id = some u := by
    rw [getUser_eq_of (trackN_metricsOnly _ _ _ _)]; exact h
  rw [trackN_metrics _ _ h1, trackN_metrics _ _ h]

theorem reconcileUser_metrics_append (db : DB) (u : UserR) :
    ∃ ext, (reconcileUser db u).metrics = db.metrics ++ ext := by
  unfold reconcileUser
  obtain ⟨e1, he1⟩ := trackN_metrics_append db u.id "transcript_processed" _
  obtain ⟨e2, he2⟩ := trackN_metrics_append _ u.id "document_generated"
    (userDocumentCount db u.id -
      countMetricRows db.metrics u.id "document_generated" u.billingPeriodStart)
  exact ⟨e1 ++ e2, by rw [he2, he1, List.append_assoc]⟩

theorem foldl_reconcileUser_metricsOnly (us : List UserR) (db : DB) :
    MetricsOnly db (us.foldl reconcileUser db) := by
  induction us generalizing db with
  | nil => exact MetricsOnly.rfl db
  | cons v rest ih =>
    rw [List.foldl_cons]
    exact (reconcileUser_metricsOnly db v).trans (ih _)

theorem foldl_reconcileUser_metrics_append (us : List UserR) (db : DB) :
    ∃ ext, (us.foldl reconcileUser db).metrics = db.metrics ++ ext := by
  induction us generalizing db with
  | nil => exact ⟨[], by simp⟩
  | cons v rest ih =>
    rw [List.foldl_cons]
    obtain ⟨e1, he1⟩ := reconcileUser_metrics_append db v
    obtain ⟨e2, he2⟩ := ih (reconcileUser db v)
    exact ⟨e1 ++ e2, by rw [he2, he1, List.append_assoc]⟩

/-- For this user, the per-period metric rows already cover the processed
transcript count and the user's document count. -/
def userSat (db : DB) (u : UserR) : Prop :=
  processedTranscriptCount db u.id ≤
    countMetricRows db.metrics u.id "transcript_processed" u.billingPeriodStart ∧
  userDocumentCount db u.id ≤
    countMetricRows db.metrics u.id "document_generated" u.billingPeriodStart

theorem reconcileUser_eq_of_sat {db : DB} {u : UserR} (hs : userSat db u) :
    reconcileUser db u = db := by
  have h1 := Nat.sub_eq_zero_of_le hs.1
  have h2 := Nat.sub_eq_zero_of_le hs.2
  simp only [reconcileUser, h1, h2]
  rfl

theorem userSat_after_reconcileUser {db : DB} {u : UserR}
    (h : getUser db u.id = some u) : userSat (reconcileUser db u) u := by
  have hmo := reconcileUser_metricsOnly db u
  unfold userSat
  rw [processedTranscriptCount_eq_of hmo, userDocumentCount_eq_of hmo,
    reconcileUser_metrics h]
  simp only [countMetricRows_append, countMetricRows_replicate]
  have ht : (("document_generated" : String) == "transcript_processed") = false := by
    decide
  have hd : (("transcript_processed" : String) == "document_generated") = false := by
    decide
  constructor
  · simp only [beq_self_eq_true, Bool.and_true, Bool.true_and, ht, Bool.false_and,
      Bool.and_false, if_true, if_false, reduceIte]
    omega
  · simp only [beq_self_eq_true, Bool.and_true, Bool.true_and, hd, Bool.false_and,
      Bool.and_false, if_true, if_false, reduceIte]
    omega

theorem userSat_mono {db db' : DB} {u : UserR} (hs : userSat db u)
    (hmo : MetricsOnly db db') (hext : ∃ ext, db'.metrics = db.metrics ++ ext) :
    userSat db' u := by
  obtain ⟨ext, he⟩ := hext
  unfold userSat
  rw [processedTranscriptCount_eq_of hmo, userDocumentCount_eq_of hmo, he]
  exact ⟨le_trans hs.1 (countMetricRows_le_append _ _ _ _ _),
    le_trans hs.2 (countMetricRows_le_append _ _ _ _ _)⟩

theorem find?_id_eq_of_nodup {l : List UserR} {u : UserR}
    (hn : (l.map (fun v => v.id)).Nodup) (hm : u ∈ l) :
    l.find? (fun v => v.id == u.id) = some u := by
  induction l with
  | nil => cases hm
  | cons v rest ih =>
    rcases List.mem_cons.mp hm with rfl | hm'
    · simp [List.find?_cons]
    · have hn' := hn
      rw [List.map_cons, List.nodup_cons] at hn'
      have hv : v.id ≠ u.id := by
        intro he
        exact hn'.1 (he ▸ List.mem_map_of_mem _ hm')
      rw [List.find?_cons_of_neg _ (by simp [hv])]
      exact ih hn'.2 hm'

theorem userSat_foldl {us : List UserR} {db : DB}
    (h : ∀ v ∈ us, getUser db v.id = some v) :
    ∀ u ∈ us, userSat (us.foldl reconcileUser db) u := by
  induction us generalizing db with
  | nil => intro u hu; cases hu
  | cons v rest ih =>
    intro u hu
    rw [List.foldl_cons]
    rcases List.mem_cons.mp hu with rfl | hu'
    · have h1 : userSat (reconcileUser db u) u :=
        userSat_after_reconcileUser (h u (List.mem_cons_self u rest))
      exact userSat_mono h1 (foldl_reconcileUser_metricsOnly rest _)
        (foldl_reconcileUser_metrics_append rest _)
    · have hmo := reconcileUser_metricsOnly db v
      exact ih (fun v' hv' => by
        rw [getUser_eq_of hmo]; exact h v' (List.mem_cons_of_mem v hv')) u hu'

theorem foldl_reconcileUser_fix {us : List UserR} {db : DB}
    (h : ∀ u ∈ us, userSat db u) : us.foldl reconcileUser db = db := by
  induction us with
  | nil => rfl
  | cons v rest ih =>
    rw [List.foldl_cons, reconcileUser_eq_of_sat (h v (List.mem_cons_self v rest))]
    exact ih (fun u hu => h u (List.mem_cons_of_mem v hu))

/-- Claim C6: the admin reconcile-metrics operation is idempotent — for every
database state (with distinct user ids, as the serial primary key guarantees)
a second run immediately after a first inserts zero additional usage-metric
rows: the state after two runs equals the state after one. -/
theorem C6_reconcile_idempotent (db : DB)
    (hn : (db.users.map (fun u => u.id)).Nodup) :
    reconcileMetrics (reconcileMetrics db) = reconcileMetrics db := by
  unfold reconcileMetrics
  have husers : (db.users.foldl reconcileUser db).users = db.users :=
    (foldl_reconcileUser_metricsOnly db.users db).1
  rw [husers]
  apply foldl_reconcileUser_fix
  intro u hu
  exact userSat_foldl (fun v hv => find?_id_eq_of_nodup hn hv) u hu

def c6DB : DB :=
  { users := [{ id := 1, email := "a@b.c", name := "A", role := "user"
                billingPeriodStart := 0, updatedAt := 0 },
              { id := 2, email := "b@b.c", name := "B", role := "premium"
                billingPeriodStart := 5, updatedAt := 0 }]
    transcripts := [{ id := 1, userId := 1, filename := "t1", content := "x"
                      status := "processed" },
                    { id := 2, userId := 1, filename := "t2", content := "y"
                      status := "processed" },
                    { id := 3, userId := 2, filename := "t3", content := "z"
                      status := "uploaded" }]
    arrangements := [{ id := 1, transcriptId := 1, userId := 1
                       extractedData := none, approvalStatus := "approved"
                       approvedAt := some 3 }]
    documents := [{ id := 1, arrangementId := 1, type := "contract"
                    title := "C", content := "QQ==", plainTextContent := none
                    status := "generated" }]
    funeralTasks := [], metrics := [], billingPeriods := []
    passwordResets := [], nextDocId := 2 }

/-- Witness for C6 at a concrete populated database. -/
theorem C6_reconcile_idempotent_witness :
    (c6DB.users.map (fun u => u.id)).Nodup ∧
    reconcileMetrics (reconcileMetrics c6DB) = reconcileMetrics c6DB :=
  ⟨by decide, C6_reconcile_idempotent c6DB (by decide)⟩

/-! ## Lemmas for the approve-workflow claims -/

theorem trackUsageMetric_documents (db : DB) (uid : Nat) (ty : String) :
    (trackUsageMetric db uid ty).documents = db.documents :=
  (trackUsageMetric_metricsOnly db uid ty).2.2.2.1

theorem trackUsageMetric_arrangements (db : DB) (uid : Nat) (ty : String) :
    (trackUsageMetric db uid ty).arrangements = db.arrangements :=
  (trackUsageMetric_metricsOnly db uid ty).2.2.1

theorem trackUsageMetric_funeralTasks (db : DB) (uid : Nat) (ty : String) :
    (trackUsageMetric db uid ty).funeralTasks = db.funeralTasks :=
  (trackUsageMetric_metricsOnly db uid ty).2.2.2.2.1

theorem attemptType_spec (db : DB) (uid aid : Nat) (env : ApproveEnv)
    (ty : DocType) :
    (attemptType db uid aid env ty).1.documents =
      db.documents ++ (attemptType db uid aid env ty).2.1.toList ∧
    (attemptType db uid aid env ty).1.arrangements = db.arrangements ∧
    (attemptType db uid aid env ty).1.funeralTasks = db.funeralTasks ∧
    (∀ row ∈ (attemptType db uid aid env ty).2.1, row.type = tyStr ty) ∧
    (attemptType db uid aid env ty).2.2 = failEntry env ty ∧
    ((primaryOutcome env ty).isOk = true →
      (attemptType db uid aid env ty).2.1.isSome = true) := by
  unfold attemptType failEntry
  cases hp : primaryOutcome env ty with
  | ok v =>
    obtain ⟨text, bytes⟩ := v
    refine ⟨?_, ?_, ?_, ?_, rfl, fun _ => rfl⟩ <;>
      simp [trackUsageMetric_documents, trackUsageMetric_arrangements,
        trackUsageMetric_funeralTasks, createDocument]
  | error e =>
    cases hf : fallbackOutcome env ty with
    | ok text =>
      refine ⟨?_, ?_, ?_, ?_, rfl, fun _ => rfl⟩ <;>
        simp [trackUsageMetric_documents, trackUsageMetric_arrangements,
          trackUsageMetric_funeralTasks, createDocument]
    | error e2 =>
      exact ⟨by simp, rfl, rfl, by simp, rfl, fun hok => nomatch hok⟩

theorem runTypes_spec (uid aid : Nat) (env : ApproveEnv) :
    ∀ (types : List DocType) (db : DB),
      (runTypes uid aid env db types).1.documents =
        db.documents ++ (runTypes uid aid env db types).2.1 ∧
      (runTypes uid aid env db types).1.arrangements = db.arrangements ∧
      (runTypes uid aid env db types).1.funeralTasks = db.funeralTasks ∧
      List.Sublist ((runTypes uid aid env db types).2.1.map (fun r => r.type))
        (types.map tyStr) ∧
      (runTypes uid aid env db types).2.2 = types.filterMap (failEntry env) ∧
      ((∀ ty ∈ types, (primaryOutcome env ty).isOk = true) →
        (runTypes uid aid env db types).2.1.length = types.length) := by
  intro types
  induction types with
  | nil => intro db; simp [runTypes]
  | cons ty rest ih =>
    intro db
    obtain ⟨ha1, ha2, ha3, ha4, ha5, ha6⟩ := attemptType_spec db uid aid env ty
    obtain ⟨hr1, hr2, hr3, hr4, hr5, hr6⟩ := ih (attemptType db uid aid env ty).1
    simp only [runTypes]
    refine ⟨?_, ?_, ?_, ?_, ?_, ?_⟩
    · rw [hr1, ha1, List.append_assoc]
    · rw [hr2, ha2]
    · rw [hr3, ha3]
    · rw [List.map_append, List.map_cons]
      cases hod : (attemptType db uid aid env ty).2.1 with
      | none => simpa using hr4.cons (tyStr ty)
      | some row =>
        have hrow : row.type = tyStr ty := ha4 row (by simp [hod])
        simpa [hod, hrow] using hr4.cons₂ (tyStr ty)
    · rw [List.filterMap_cons, hr5, ha5]
      cases hfe : failEntry env ty <;> simp
    · intro hall
      have hsome := ha6 (hall ty (List.mem_cons_self _ _))
      cases hod : (attemptType db uid aid env ty).2.1 with
      | none => rw [hod] at hsome; simp at hsome
      | some row =>
        have hlen := hr6 (fun t htm => hall t (List.mem_cons_of_mem _ htm))
        simp [hod, hlen]

theorem approveArrangement_documents (db : DB) (aid now : Nat) :
    (approveArrangement db aid now).documents = db.documents := rfl

theorem approveArrangement_funeralTasks (db : DB) (aid now : Nat) :
    (approveArrangement db aid now).funeralTasks = db.funeralTasks := rfl

theorem approveArrangement_approved (db : DB) (aid now : Nat) :
    ∀ a ∈ (approveArrangement db aid now).arrangements, a.id = aid →
      a.approvalStatus = "approved" ∧ a.approvedAt = some now := by
  intro a ha hid
  simp only [approveArrangement, List.mem_map] at ha
  obtain ⟨b, hb, rfl⟩ := ha
  by_cases hbid : b.id = aid
  · simp [hbid]
  · rw [if_neg (by simp [hbid])] at hid ⊢
    exact absurd hid hbid

theorem createTaskStep_documents (db : DB) (aid : Nat) (env : ApproveEnv) :
    (createTaskStep db aid env).documents = db.documents := by
  unfold createTaskStep
  cases generateDocument .tasks emptyArrangementData env.today env.llmTask <;>
    simp [createTask]

theorem createTaskStep_arrangements (db : DB) (aid : Nat) (env : ApproveEnv) :
    (createTaskStep db aid env).arrangements = db.arrangements := by
  unfold createTaskStep
  cases generateDocument .tasks emptyArrangementData env.today env.llmTask <;>
    simp [createTask]

theorem failEntry_eq_none_iff (env : ApproveEnv) (ty : DocType) :
    failEntry env ty = none ↔ (primaryOutcome env ty).isOk = true := by
  unfold failEntry
  cases primaryOutcome env ty <;> simp [Except.isOk, Except.toBool]

/-- Claim C1: for every arrangement that exists and whose transcript belongs
to the requesting user, the approve handler responds normally (never with an
exception): the arrangement ends approved with approvedAt stamped; the
document rows created are appended to the documents table, number between 0
and 6 with at most one per document type, and exactly 6 when failedDocuments
is empty; and failedDocuments enumerates exactly the types whose primary
generation attempt failed. -/
theorem C1_approve_workflow (db : DB) (userId arrangementId : Nat)
    (env : ApproveEnv) (arr : ArrangementR) (tr : TranscriptR)
    (ha : getArrangementById db arrangementId = some arr)
    (ht : getTranscriptById db arr.transcriptId userId = some tr) :
    ∀ db' resp, approveHandler db userId arrangementId env = (db', resp) →
      ∃ gens fails arrOpt,
        resp = ApproveResp.ok gens fails arrOpt ∧
        db'.documents = db.documents ++ gens ∧
        gens.length ≤ 6 ∧
        (∀ s : String, (gens.map (fun g => g.type)).count s ≤ 1) ∧
        fails = documentTypes.filterMap (failEntry env) ∧
        (fails = [] → gens.length = 6) ∧
        (∀ a ∈ db'.arrangements, a.id = arrangementId →
          a.approvalStatus = "approved" ∧ a.approvedAt = some env.now) := by
  intro db' resp heq
  simp only [approveHandler, ha, ht] at heq
  obtain ⟨rfl, rfl⟩ := Prod.mk.injEq .. |>.mp heq
  set db1 := approveArrangement db arrangementId env.now with hdb1
  obtain ⟨hr1, hr2, hr3, hr4, hr5, hr6⟩ := runTypes_spec userId arrangementId env documentTypes db1
  refine ⟨_, _, _, rfl, ?_, ?_, ?_, hr5, ?_, ?_⟩
  · rw [createTaskStep_documents, hr1, hdb1, approveArrangement_documents]
  · have := hr4.length_le
    simpa using this
  · intro s
    have hcount := hr4.count_le s
    have hnodup : (documentTypes.map tyStr).Nodup := by decide
    calc ((runTypes userId arrangementId env db1 documentTypes).2.1.map
            (fun r => r.type)).count s
        ≤ (documentTypes.map tyStr).count s := hcount
      _ ≤ 1 := List.nodup_iff_count_le_one.mp hnodup s
  · intro hfail
    apply hr6
    intro ty hty
    have := (List.filterMap_eq_nil_iff.mp (hr5 ▸ hfail)) ty hty
    exact (failEntry_eq_none_iff env ty).mp this
  · intro a haa hid
    rw [createTaskStep_arrangements, hr2] at haa
    exact approveArrangement_approved db arrangementId env.now a haa hid

theorem primaryOutcome_parse_error {env : ApproveEnv} {e : String}
    (hp : env.parse = .error e) (ty : DocType) :
    primaryOutcome env ty = .error e := by
  unfold primaryOutcome
  rw [hp]
  rfl

theorem fallbackOutcome_parse_error {env : ApproveEnv} {e : String}
    (hp : env.parse = .error e) (ty : DocType) :
    fallbackOutcome env ty = .error e := by
  unfold fallbackOutcome
  rw [hp]
  rfl

theorem attemptType_parse_error {env : ApproveEnv} {e : String}
    (hp : env.parse = .error e) (db : DB) (uid aid : Nat) (ty : DocType) :
    attemptType db uid aid env ty = (db, none, some (tyStr ty, e)) := by
  unfold attemptType
  rw [primaryOutcome_parse_error hp, fallbackOutcome_parse_error hp]

theorem runTypes_parse_error {env : ApproveEnv} {e : String}
    (hp : env.parse = .error e) (uid aid : Nat) :
    ∀ (types : List DocType) (db : DB),
      runTypes uid aid env db types =
        (db, [], types.map (fun ty => (tyStr ty, e))) := by
  intro types
  induction types with
  | nil => intro db; rfl
  | cons ty rest ih =>
    intro db
    simp only [runTypes, attemptType_parse_error hp, ih]
    rfl

/-- Claim C9: the approve handler marks the arrangement approved (stamping
approvedAt) before any document generation is attempted and never reverts it:
whatever the external outcomes, the final state has the arrangement approved;
in particular when JSON.parse of the stored blob fails every one of the six
types fails, zero document rows are stored, failedDocuments carries all six
entries — and the arrangement is still approved. -/
theorem C9_approval_precedes_generation (db : DB) (userId arrangementId : Nat)
    (env : ApproveEnv) (arr : ArrangementR) (tr : TranscriptR)
    (ha : getArrangementById db arrangementId = some arr)
    (ht : getTranscriptById db arr.transcriptId userId = some tr) :
    ∀ db' resp, approveHandler db userId arrangementId env = (db', resp) →
      (∀ a ∈ db'.arrangements, a.id = arrangementId →
        a.approvalStatus = "approved" ∧ a.approvedAt = some env.now) ∧
      (∀ e, env.parse = Except.error e →
        db'.documents = db.documents ∧
        resp = ApproveResp.ok []
          (documentTypes.map (fun ty => (tyStr ty, e)))
          (getArrangementById db' arrangementId)) := by
  intro db' resp heq
  simp only [approveHandler, ha, ht] at heq
  obtain ⟨rfl, rfl⟩ := Prod.mk.injEq .. |>.mp heq
  set db1 := approveArrangement db arrangementId env.now with hdb1
  constructor
  · intro a haa hid
    rw [createTaskStep_arrangements,
      (runTypes_spec userId arrangementId env documentTypes db1).2.1] at haa
    exact approveArrangement_approved db arrangementId env.now a haa hid
  · intro e hp
    rw [runTypes_parse_error hp userId arrangementId documentTypes db1]
    refine ⟨?_, rfl⟩
    rw [createTaskStep_documents]
    exact approveArrangement_documents db arrangementId env.now

def approveArr : ArrangementR :=
  { id := 1, transcriptId := 4, userId := 1, extractedData := some "data"
    approvalStatus := "pending", approvedAt := none }

def approveTr : TranscriptR :=
  { id := 4, userId := 1, filename := "t.txt", content := "hello"
    status := "processed" }

def approveDB : DB :=
  { users := [{ id := 1, email := "a@b.c", name := "A", role := "user"
                billingPeriodStart := 0, updatedAt := 0 }]
    transcripts := [approveTr]
    arrangements := [approveArr]
    documents := [], funeralTasks := [], metrics := [], billingPeriods := []
    passwordResets := [], nextDocId := 1 }

/-- Environment in which every external call succeeds. -/
def c1Env : ApproveEnv :=
  { parse := .ok emptyArrangementData
    llmPrimary := fun _ => .content "generated content"
    pdf := fun _ => .ok [37, 80, 68, 70]
    llmFallback := fun _ => .content "fallback content"
    llmTask := .content "task content"
    today := "January 1, 2025", now := 1000 }

/-- Witness for C1 at a fully successful concrete approval. -/
theorem C1_approve_workflow_witness :
    getArrangementById approveDB 1 = some approveArr ∧
    getTranscriptById approveDB approveArr.transcriptId 1 = some approveTr ∧
    (∃ gens fails arrOpt,
      (approveHandler approveDB 1 1 c1Env).2 = ApproveResp.ok gens fails arrOpt ∧
      (approveHandler approveDB 1 1 c1Env).1.documents =
        approveDB.documents ++ gens ∧
      gens.length ≤ 6 ∧
      (∀ s : String, (gens.map (fun g => g.type)).count s ≤ 1) ∧
      fails = documentTypes.filterMap (failEntry c1Env) ∧
      (fails = [] → gens.length = 6) ∧
      (∀ a ∈ (approveHandler approveDB 1 1 c1Env).1.arrangements, a.id = 1 →
        a.approvalStatus = "approved" ∧ a.approvedAt = some c1Env.now)) :=
  ⟨by decide, by decide,
   C1_approve_workflow approveDB 1 1 c1Env approveArr approveTr (by decide)
     (by decide) (approveHandler approveDB 1 1 c1Env).1
     (approveHandler approveDB 1 1 c1Env).2 rfl⟩

/-- Environment in which JSON.parse of the stored blob throws. -/
def c9Env : ApproveEnv :=
  { parse := .error "Unexpected token d in JSON at position 0"
    llmPrimary := fun _ => .content "generated content"
    pdf := fun _ => .ok [37, 80, 68, 70]
    llmFallback := fun _ => .content "fallback content"
    llmTask := .content "task content"
    today := "January 1, 2025", now := 1000 }

/-- Witness for C9 at a concrete approval whose six generations all fail. -/
theorem C9_approval_precedes_generation_witness :
    getArrangementById approveDB 1 = some approveArr ∧
    getTranscriptById approveDB approveArr.transcriptId 1 = some approveTr ∧
    ((∀ a ∈ (approveHandler approveDB 1 1 c9Env).1.arrangements, a.id = 1 →
        a.approvalStatus = "approved" ∧ a.approvedAt = some c9Env.now) ∧
     (∀ e, c9Env.parse = Except.error e →
        (approveHandler approveDB 1 1 c9Env).1.documents = approveDB.documents ∧
        (approveHandler approveDB 1 1 c9Env).2 = ApproveResp.ok []
          (documentTypes.map (fun ty => (tyStr ty, e)))
          (getArrangementById (approveHandler approveDB 1 1 c9Env).1 1))) :=
  ⟨by decide, by decide,
   C9_approval_precedes_generation approveDB 1 1 c9Env approveArr approveTr
     (by decide) (by decide) (approveHandler approveDB 1 1 c9Env).1
     (approveHandler approveDB 1 1 c9Env).2 rfl⟩
